import Mathlib

/-!
Verification of the turboprop propulsion pipeline composition/wiring core
(`aviary/subsystems/propulsion/turboprop_model.py`).

The OpenMDAO-facing code is shallowly embedded: a subsystem promotion entry
(`'*'`, `'name'`, or `('src', 'tgt')`) becomes the inductive `Promo`; the
promotion lists built by `TurbopropMission.configure` become pure list
computations; the buggy Python statements `shp_outputs(...)` /
`gearbox_inputs(...)` (calling a list object, which raises `TypeError`)
become an error result of the embedded `configure`.
-/

namespace Turboprop

/-- Modelled from the spec: the canonical port-name constants
(`Dynamic.Mission.THRUST` etc., defined in `variable_info/variables.py`,
which is not under `src/`). The spec (§4.2, §8) refers to these ports by the
conventional names `thrust`, `thrust_max`, `rpm`, `shaft_power`,
`shaft_power_max`; the wiring algorithm only needs them to be distinct
string tokens. -/
def THRUST : String := "thrust"

/-- Modelled from the spec: maximum-thrust port name. -/
def THRUST_MAX : String := "thrust_max"

/-- Modelled from the spec: rotational-speed (RPM) port name. -/
def RPM : String := "rpm"

/-- Modelled from the spec: shaft power port name. -/
def SHAFT_POWER : String := "shaft_power"

/-- Modelled from the spec: maximum shaft power port name. -/
def SHAFT_POWER_MAX : String := "shaft_power_max"

/-- Verbosity ordinal of `Verbosity.BRIEF` (levels QUIET < BRIEF < VERBOSE < DEBUG). -/
def BRIEF : Nat := 1

/-- One entry of an OpenMDAO promotion list: `glob` stands for the string
`'*'` (promote everything under its own name), `var n` for an explicit
name promoted unchanged, `ali s t` for a tuple `(s, t)` promoting port `s`
under the alias `t`. -/
inductive Promo where
  | glob : Promo
  | var (n : String) : Promo
  | ali (s t : String) : Promo
deriving DecidableEq, Repr

/-- The alias target a single promotion entry assigns to port `v`
(`none` when the entry does not explicitly mention `v`). -/
def promoSrcTgt (v : String) : Promo → Option String
  | Promo.glob => none
  | Promo.var n => if n = v then some v else none
  | Promo.ali s t => if s = v then some t else none

/-- Last explicit promotion target for `v` in the list (later entries win,
matching the spec's tie-break policy). -/
def findAlias (ps : List Promo) (v : String) : Option String :=
  (ps.filterMap (promoSrcTgt v)).getLast?

/-- Whether the promotion list contains the `'*'` glob. -/
def hasGlob (ps : List Promo) : Bool :=
  ps.any fun p => match p with
    | Promo.glob => true
    | _ => false

/-- Name under which port `v` is exposed by a promotion list: an explicit
entry beats the glob; with neither, the port is not promoted (`none`). -/
def promoteName (ps : List Promo) (v : String) : Option String :=
  match findAlias ps v with
  | some t => some t
  | none => if hasGlob ps then some v else none

/-- Entries appended to `shp_outputs` for one power-source output `var`
by the generic SHP→gearbox loop (`configure`, the `for var in
shp_output_set` loop): alias to `var + "_gearbox"` when `var` (or
`var + "_in"`) is a gearbox input, except RPM. -/
def gbOutStep (shpSet gbSet : List String) (v : String) : List Promo :=
  if v ∈ shpSet ∧ v ∈ gbSet ∧ v ≠ RPM then
    [Promo.ali v (v ++ "_gearbox")]
  else if v ∈ shpSet ∧ (v ++ "_in") ∈ gbSet ∧ v ≠ RPM then
    [Promo.ali v (v ++ "_gearbox")]
  else []

/-- Entries appended to `gearbox_inputs` for one power-source output `var`
by the same loop: the consumer side is `var` itself in the first case and
`var + "_in"` in the suffix-convention case. -/
def gbInStep (shpSet gbSet : List String) (v : String) : List Promo :=
  if v ∈ shpSet ∧ v ∈ gbSet ∧ v ≠ RPM then
    [Promo.ali v (v ++ "_gearbox")]
  else if v ∈ shpSet ∧ (v ++ "_in") ∈ gbSet ∧ v ≠ RPM then
    [Promo.ali (v ++ "_in") (v ++ "_gearbox")]
  else []

/-- Producer-side promotions accumulated by the SHP→gearbox loop. -/
def shpGearboxOuts (shpSet gbSet : List String) : List Promo :=
  shpSet.foldl (fun acc v => acc ++ gbOutStep shpSet gbSet v) []

/-- Consumer-side promotions accumulated by the SHP→gearbox loop. -/
def shpGearboxIns (shpSet gbSet : List String) : List Promo :=
  shpSet.foldl (fun acc v => acc ++ gbInStep shpSet gbSet v) []

/-- Entries appended to `gearbox_outputs` for one propeller input `var` by
the gearbox→propeller loop: a gearbox output `var + "_out"` is aliased to
the exact propeller input name `var`. -/
def gbPropStep (propSet gbOutSet : List String) (v : String) : List Promo :=
  if (v ++ "_out") ∈ gbOutSet ∧ v ∈ propSet then
    [Promo.ali (v ++ "_out") v]
  else []

/-- Promotions accumulated by the gearbox→propeller loop. -/
def gearboxPropOuts (propSet gbOutSet : List String) : List Promo :=
  propSet.foldl (fun acc v => acc ++ gbPropStep propSet gbOutSet v) []

/-- Input of `TurbopropMission.configure`: presence of the gearbox, the
introspected promoted-name manifests, the optional fixed-RPM override
(`Aircraft.Engine.FIXED_RPM`, already unit-converted to rpm by
`aviary_inputs.get_val(..., units='rpm')`; `none` when absent), the
verbosity ordinal, and the node count. -/
structure ConfigureCfg where
  hasGearbox : Bool
  shpOutputSet : List String
  gearboxInputSet : List String
  gearboxOutputSet : List String
  propellerInputSet : List String
  fixedRPM : Option Rat
  verbosity : Nat
  numNodes : Nat
deriving Repr

/-- Result of a successful `configure` run: the four promotion lists passed
to `self.promotes`, the constant array added to the `fixed_rpm_source`
IndepVarComp (when the override is active), the promotion list applied to
`fixed_rpm_source`, and whether the override warning was emitted. -/
structure Wiring where
  shpOutputs : List Promo
  gearboxInputs : List Promo
  gearboxOutputs : List Promo
  propellerInputs : List Promo
  propellerOutputs : List Promo
  fixedRPMArray : Option (List Rat)
  fixedRPMPromos : List Promo
  warned : Bool
deriving Repr

/-- Runtime error raised during `configure`. `listNotCallable` is the
`TypeError` produced by the statements `shp_outputs((...))` and
`gearbox_inputs((...))`, which invoke a call on a Python list object
instead of appending to it. -/
inductive ConfigureError where
  | listNotCallable : ConfigureError
deriving DecidableEq, Repr

/-- `shp_outputs` after the thrust aliasing and the generic SHP→gearbox
loop (lines before the RPM special-casing): starts as `['*']`, appends
`(thrust, 'turboshaft_thrust')` and `(thrust_max, 'turboshaft_thrust_max')`
when present, then the gearbox loop entries when a gearbox is present. -/
def shpOutputsBase (c : ConfigureCfg) : List Promo :=
  [Promo.glob]
    ++ (if THRUST ∈ c.shpOutputSet then [Promo.ali THRUST "turboshaft_thrust"] else [])
    ++ (if THRUST_MAX ∈ c.shpOutputSet then [Promo.ali THRUST_MAX "turboshaft_thrust_max"] else [])
    ++ (if c.hasGearbox then shpGearboxOuts c.shpOutputSet c.gearboxInputSet else [])

/-- `gearbox_inputs` after the generic SHP→gearbox loop. -/
def gearboxInputsBase (c : ConfigureCfg) : List Promo :=
  [Promo.glob]
    ++ (if c.hasGearbox then shpGearboxIns c.shpOutputSet c.gearboxInputSet else [])

/-- `gearbox_outputs`: `['*']` plus the gearbox→propeller loop entries. -/
def gearboxOutputsFull (c : ConfigureCfg) : List Promo :=
  [Promo.glob]
    ++ (if c.hasGearbox then gearboxPropOuts c.propellerInputSet c.gearboxOutputSet else [])

/-- `propeller_outputs`: everything passes through except `thrust` and
`thrust_max`, which are aliased for the thrust adders. -/
def propellerOutputsDef : List Promo :=
  [Promo.glob,
   Promo.ali THRUST "propeller_thrust",
   Promo.ali THRUST_MAX "propeller_thrust_max"]

/-- Shallow embedding of `TurbopropMission.configure`. With a fixed-RPM
override: optionally warn and alias the power-source RPM output away under
`AUTO_OVERRIDE:`, materialize `np.ones(num_nodes) * fixed_rpm`, and bind it
to the gearbox RPM input (gearbox present) or expose it directly.  Without
an override and with a gearbox present, the source executes
`shp_outputs((rpm, rpm_gearbox))` — a call on a list — so the embedded
function returns the corresponding `TypeError` instead of a wiring. -/
def configure (c : ConfigureCfg) : Except ConfigureError Wiring :=
  match c.fixedRPM with
  | some fixed_rpm =>
      Except.ok
        { shpOutputs :=
            if RPM ∈ c.shpOutputSet then
              shpOutputsBase c ++ [Promo.ali RPM ("AUTO_OVERRIDE:" ++ RPM)]
            else shpOutputsBase c
          gearboxInputs :=
            if c.hasGearbox then
              gearboxInputsBase c ++ [Promo.ali (RPM ++ "_in") "fixed_rpm"]
            else gearboxInputsBase c
          gearboxOutputs := gearboxOutputsFull c
          propellerInputs := [Promo.glob]
          propellerOutputs := propellerOutputsDef
          fixedRPMArray := some (List.replicate c.numNodes fixed_rpm)
          fixedRPMPromos :=
            if c.hasGearbox then [Promo.ali RPM "fixed_rpm"] else [Promo.glob]
          warned := decide (RPM ∈ c.shpOutputSet) && decide (BRIEF ≤ c.verbosity) }
  | none =>
      if c.hasGearbox then
        Except.error ConfigureError.listNotCallable
      else
        Except.ok
          { shpOutputs := shpOutputsBase c
            gearboxInputs := gearboxInputsBase c
            gearboxOutputs := gearboxOutputsFull c
            propellerInputs := [Promo.glob]
            propellerOutputs := propellerOutputsDef
            fixedRPMArray := none
            fixedRPMPromos := []
            warned := false }

/-- Default value of an unconnected ExecComp input: the declared
`'val': np.zeros(num_nodes)`.  A connected input supplies its array. -/
def resolveInput (n : Nat) (x : Option (List Rat)) : List Rat :=
  x.getD (List.replicate n 0)

/-- The `thrust_adder` ExecComp:
`turboprop_thrust = turboshaft_thrust + propeller_thrust`, element-wise
over the node batch, with unconnected operands defaulting to zeros. -/
def thrust_adder (n : Nat) (turboshaft_thrust propeller_thrust : Option (List Rat)) :
    List Rat :=
  List.zipWith (fun a b => a + b)
    (resolveInput n turboshaft_thrust) (resolveInput n propeller_thrust)

/-- The `max_thrust_adder` ExecComp:
`turboprop_thrust_max = turboshaft_thrust_max + propeller_thrust_max`. -/
def max_thrust_adder (n : Nat) (turboshaft_thrust_max propeller_thrust_max : Option (List Rat)) :
    List Rat :=
  List.zipWith (fun a b => a + b)
    (resolveInput n turboshaft_thrust_max) (resolveInput n propeller_thrust_max)

/-- A subsystem added to the per-node propeller group, with the promotion
lists given to `add_subsystem` (inputs and outputs separately). -/
structure SubsysP where
  sname : String
  inPromos : List Promo
  outPromos : List Promo
deriving DecidableEq, Repr

/-- Nominal instance of a user-supplied propeller stage
(`promotes_inputs=['*']`, `promotes_outputs=[Dynamic.Mission.THRUST]`). -/
def userPropBase (pname : String) : SubsysP :=
  { sname := pname ++ "_base"
    inPromos := [Promo.glob]
    outPromos := [Promo.var THRUST] }

/-- Max instance of a user-supplied propeller stage: shares every input via
`'*'` except shaft power, which is promoted as `shaft_power_max`; its
thrust output is promoted as `thrust_max`. -/
def userPropMax (pname : String) : SubsysP :=
  { sname := pname ++ "_max"
    inPromos := [Promo.glob, Promo.ali SHAFT_POWER SHAFT_POWER_MAX]
    outPromos := [Promo.ali THRUST THRUST_MAX] }

/-- Per-node propeller group built by `setup` for a user-supplied
propeller model whose `build_mission` returned a computation. -/
def userPropellerGroup (pname : String) : List SubsysP :=
  [userPropBase pname, userPropMax pname]

/-- Modelled from the spec: the explicit top-level input list `prop_inputs`
promoted into the max instance of the built-in propeller.  The Python list
names `Dynamic.Mission` / `Aircraft` constants from `variables.py` (not
under `src/`); the spec's conventional names are used for them. -/
def prop_inputs : List String :=
  ["mach", "propeller_tip_speed_max", "propeller_tip_mach_max", "density",
   "velocity", "propeller_diameter", "propeller_activity_factor",
   "propeller_integrated_lift_coefficient", "nacelle_avg_diameter",
   "speed_of_sound", RPM]

/-- Modelled from the spec: the input manifest of the built-in
`PropellerPerformance` (Hamilton Standard) stage, whose source file
`propeller_performance.py` is not under `src/`.  Per spec §4.1/§8 the dual
instantiation shares every input other than shaft power, so the manifest is
the promoted top-level inputs plus the shaft-power port. -/
def propellerPerformanceInputs : List String :=
  prop_inputs ++ [SHAFT_POWER]

/-- Modelled from the spec: the output manifest of the built-in
`PropellerPerformance` stage.  Spec §4.1 describes the `thrust_max` branch
as "a structural workaround rather than a stage capability", and §6 allows
at most one port literally named `thrust`; the stage natively produces only
`thrust`. -/
def propellerPerformanceOutputs : List String := [THRUST]

/-- Nominal instance of the built-in propeller (`promotes=['*']`). -/
def defaultPropBase : SubsysP :=
  { sname := "propeller_model_base"
    inPromos := [Promo.glob]
    outPromos := [Promo.glob] }

/-- Max instance of the built-in propeller: only the `prop_inputs` names
are promoted (unchanged), plus shaft power aliased to `shaft_power_max`;
thrust output aliased to `thrust_max`. -/
def defaultPropMax : SubsysP :=
  { sname := "propeller_model_max"
    inPromos := prop_inputs.map Promo.var ++ [Promo.ali SHAFT_POWER SHAFT_POWER_MAX]
    outPromos := [Promo.ali THRUST THRUST_MAX] }

/-- Per-node propeller group built by `setup` when no propeller model is
supplied (Hamilton Standard default). -/
def defaultPropellerGroup : List SubsysP :=
  [defaultPropBase, defaultPropMax]

/-- A subsystem attached to the pre- or post-mission composite group, with
the promotion list passed to `add_subsystem` (empty list = no `promotes`
argument, i.e. the subsystem's ports are not promoted). -/
structure AttachedSub where
  aname : String
  promos : List Promo
deriving DecidableEq, Repr

/-- Name under which a port of an attached subsystem is visible at the
composite boundary: its promoted name, or the subsystem-namespaced path
`name.port` when it is not promoted. -/
def exposedAs (a : AttachedSub) (port : String) : String :=
  match promoteName a.promos port with
  | some t => t
  | none => a.aname ++ "." ++ port

/-- Shallow embedding of `TurbopropModel.build_pre_mission`: the shaft
power model is skipped entirely when it is an `EngineDeck`; otherwise each
stage whose `build_pre_mission` returns a computation (`some` of the
returned group's name) is attached with `promotes=['*']`. -/
def build_pre_mission (shpIsEngineDeck : Bool)
    (shpPre gearboxPre : Option String)
    (propellerModel : Option String) (propellerPre : Option String) :
    List AttachedSub :=
  (if shpIsEngineDeck then []
   else match shpPre with
     | some n => [{ aname := n, promos := [Promo.glob] }]
     | none => [])
  ++ (match gearboxPre with
      | some n => [{ aname := n, promos := [Promo.glob] }]
      | none => [])
  ++ (match propellerModel with
      | some _ =>
        match propellerPre with
        | some n => [{ aname := n, promos := [Promo.glob] }]
        | none => []
      | none => [])

/-- Shallow embedding of `TurbopropModel.build_post_mission`: each stage
whose `build_post_mission` returns a computation is attached under the
stage's own name, with no `promotes` argument at all. -/
def build_post_mission (shpName : String) (shpPost : Bool)
    (gearboxName : String) (gearboxPost : Bool)
    (propellerModel : Option String) (propellerPost : Bool) :
    List AttachedSub :=
  (if shpPost then [{ aname := shpName, promos := [] }] else [])
  ++ (if gearboxPost then [{ aname := gearboxName, promos := [] }] else [])
  ++ (match propellerModel with
      | some n => if propellerPost then [{ aname := n, promos := [] }] else []
      | none => [])

/-- The `GearboxBuilder` constructor call made by `TurbopropModel.__init__`
when no gearbox model is supplied, recorded by its arguments. -/
structure GearboxBuilderModel where
  name : String
  include_constraints : Bool
deriving DecidableEq, Repr

/-- State of a `TurbopropModel` after `__init__`: the fields relevant to
pipeline topology.  `shaft_power_model_is_default` records whether the
default `EngineDeck` was substituted. -/
structure TurbopropModelState where
  name : String
  shaft_power_model_is_default : Bool
  propeller_model : Option String
  gearbox_model : Option GearboxBuilderModel
deriving Repr

/-- Shallow embedding of `TurbopropModel.__init__`: when `gearbox_model` is
`None`, a default `GearboxBuilder(name + '_gearbox',
include_constraints=True)` is substituted. -/
def TurbopropModel_init (name : String) (shaft_power_model : Option String)
    (propeller_model : Option String)
    (gearbox_model : Option GearboxBuilderModel) : TurbopropModelState :=
  { name := name
    shaft_power_model_is_default := shaft_power_model.isNone
    propeller_model := propeller_model
    gearbox_model :=
      match gearbox_model with
      | some g => some g
      | none => some { name := name ++ "_gearbox", include_constraints := true } }

/-- `build_mission` hands `self.gearbox_model` to `TurbopropMission`
unchanged; this is the gearbox option the mission group receives. -/
def TurbopropModel_build_mission_gearbox (m : TurbopropModelState) :
    Option GearboxBuilderModel :=
  m.gearbox_model

/-- `has_gearbox = self.options['gearbox_model'] is not None` in
`TurbopropMission.configure`. -/
def hasGearboxOf (gm : Option GearboxBuilderModel) : Bool :=
  gm.isSome

/-! Helper lemmas about promotion lists and the fold-based wiring loops. -/

theorem mem_foldl_append {α β : Type} (f : α → List β) (l : List α) (a : List β) (x : β) :
    x ∈ l.foldl (fun acc v => acc ++ f v) a ↔ x ∈ a ∨ ∃ v, v ∈ l ∧ x ∈ f v := by
  induction l generalizing a with
  | nil => simp
  | cons hd tl ih =>
    rw [List.foldl_cons, ih]
    constructor
    · rintro (h | h)
      · rcases List.mem_append.mp h with h' | h'
        · exact Or.inl h'
        · exact Or.inr ⟨hd, List.mem_cons_self hd tl, h'⟩
      · rcases h with ⟨v, hv, hx⟩
        exact Or.inr ⟨v, List.mem_cons_of_mem hd hv, hx⟩
    · rintro (h | ⟨v, hv, hx⟩)
      · exact Or.inl (List.mem_append.mpr (Or.inl h))
      · rcases List.mem_cons.mp hv with rfl | hv'
        · exact Or.inl (List.mem_append.mpr (Or.inr hx))
        · exact Or.inr ⟨v, hv', hx⟩

theorem findAlias_concat (ps : List Promo) (v t : String) :
    findAlias (ps ++ [Promo.ali v t]) v = some t := by
  unfold findAlias
  rw [List.filterMap_append]
  simp [promoSrcTgt]

theorem findAlias_eq_none {ps : List Promo} {v : String}
    (h : ∀ p ∈ ps, promoSrcTgt v p = none) : findAlias ps v = none := by
  unfold findAlias
  rw [List.filterMap_eq_nil_iff.mpr h]
  rfl

theorem promoteName_of_none {ps : List Promo} {v : String}
    (h : findAlias ps v = none) (hg : hasGlob ps = true) :
    promoteName ps v = some v := by
  simp [promoteName, h, hg]

theorem promoteName_concat (ps : List Promo) (v t : String) :
    promoteName (ps ++ [Promo.ali v t]) v = some t := by
  simp [promoteName, findAlias_concat]

theorem promoteName_glob_only (p : String) : promoteName [Promo.glob] p = some p := rfl

theorem mem_shpGearboxOuts {shpSet gbSet : List String} {p : Promo} :
    p ∈ shpGearboxOuts shpSet gbSet ↔ ∃ v, v ∈ shpSet ∧ p ∈ gbOutStep shpSet gbSet v := by
  unfold shpGearboxOuts
  rw [mem_foldl_append]
  simp

theorem mem_shpGearboxIns {shpSet gbSet : List String} {p : Promo} :
    p ∈ shpGearboxIns shpSet gbSet ↔ ∃ v, v ∈ shpSet ∧ p ∈ gbInStep shpSet gbSet v := by
  unfold shpGearboxIns
  rw [mem_foldl_append]
  simp

theorem mem_gearboxPropOuts {propSet gbOutSet : List String} {p : Promo} :
    p ∈ gearboxPropOuts propSet gbOutSet ↔
      ∃ v, v ∈ propSet ∧ p ∈ gbPropStep propSet gbOutSet v := by
  unfold gearboxPropOuts
  rw [mem_foldl_append]
  simp

theorem gbOutStep_shape {shpSet gbSet : List String} {v : String} {p : Promo}
    (hp : p ∈ gbOutStep shpSet gbSet v) : p = Promo.ali v (v ++ "_gearbox") := by
  unfold gbOutStep at hp
  split at hp
  · simpa using hp
  · split at hp
    · simpa using hp
    · simp at hp

theorem gbOutStep_cond {shpSet gbSet : List String} {v : String} {p : Promo}
    (hp : p ∈ gbOutStep shpSet gbSet v) : v ∈ gbSet ∨ (v ++ "_in") ∈ gbSet := by
  unfold gbOutStep at hp
  split at hp
  · next h => exact Or.inl h.2.1
  · split at hp
    · next h => exact Or.inr h.2.1
    · simp at hp

theorem gbInStep_shape {shpSet gbSet : List String} {v : String} {p : Promo}
    (hp : p ∈ gbInStep shpSet gbSet v) :
    p = Promo.ali v (v ++ "_gearbox") ∨ p = Promo.ali (v ++ "_in") (v ++ "_gearbox") := by
  unfold gbInStep at hp
  split at hp
  · exact Or.inl (by simpa using hp)
  · split at hp
    · exact Or.inr (by simpa using hp)
    · simp at hp

theorem gbPropStep_shape {propSet gbOutSet : List String} {v : String} {p : Promo}
    (hp : p ∈ gbPropStep propSet gbOutSet v) : p = Promo.ali (v ++ "_out") v := by
  unfold gbPropStep at hp
  split at hp
  · simpa using hp
  · simp at hp

theorem hasGlob_shpOutputsBase (c : ConfigureCfg) : hasGlob (shpOutputsBase c) = true := rfl

theorem zipWith_add_getD (xs ys : List Rat) (i : Nat)
    (hx : i < xs.length) (hy : i < ys.length) :
    (List.zipWith (fun a b => a + b) xs ys).getD i 0 = xs.getD i 0 + ys.getD i 0 := by
  induction xs generalizing ys i with
  | nil => simp at hx
  | cons x xs ih =>
    cases ys with
    | nil => simp at hy
    | cons y ys =>
      cases i with
      | zero => simp
      | succ n =>
        simp only [List.zipWith_cons_cons, List.getD_cons_succ]
        exact ih ys n (by simpa using hx) (by simpa using hy)

theorem zipWith_add_replicate_left (ys : List Rat) :
    List.zipWith (fun a b => a + b) (List.replicate ys.length 0) ys = ys := by
  induction ys with
  | nil => rfl
  | cons y ys ih => simp only [List.length_cons, List.replicate_succ,
      List.zipWith_cons_cons, zero_add, ih]

theorem zipWith_add_replicate_right (xs : List Rat) :
    List.zipWith (fun a b => a + b) xs (List.replicate xs.length 0) = xs := by
  induction xs with
  | nil => rfl
  | cons x xs ih => simp only [List.length_cons, List.replicate_succ,
      List.zipWith_cons_cons, add_zero, ih]

theorem configure_ok_shape {c : ConfigureCfg} {w : Wiring}
    (hw : configure c = Except.ok w) :
    w.shpOutputs = (match c.fixedRPM with
       | some _ =>
         if RPM ∈ c.shpOutputSet then
           shpOutputsBase c ++ [Promo.ali RPM ("AUTO_OVERRIDE:" ++ RPM)]
         else shpOutputsBase c
       | none => shpOutputsBase c) ∧
    w.gearboxInputs = (match c.fixedRPM with
       | some _ =>
         if c.hasGearbox then
           gearboxInputsBase c ++ [Promo.ali (RPM ++ "_in") "fixed_rpm"]
         else gearboxInputsBase c
       | none => gearboxInputsBase c) ∧
    w.gearboxOutputs = gearboxOutputsFull c ∧
    w.propellerInputs = [Promo.glob] ∧
    w.propellerOutputs = propellerOutputsDef ∧
    w.fixedRPMArray = (match c.fixedRPM with
       | some fixed_rpm => some (List.replicate c.numNodes fixed_rpm)
       | none => none) ∧
    w.fixedRPMPromos = (match c.fixedRPM with
       | some _ => if c.hasGearbox then [Promo.ali RPM "fixed_rpm"] else [Promo.glob]
       | none => []) ∧
    w.warned = (match c.fixedRPM with
       | some _ => decide (RPM ∈ c.shpOutputSet) && decide (BRIEF ≤ c.verbosity)
       | none => false) := by
  cases hfix : c.fixedRPM with
  | some R =>
    simp only [configure, hfix] at hw
    rw [Except.ok.injEq] at hw
    subst hw
    simp [hfix]
  | none =>
    simp only [configure, hfix] at hw
    split at hw
    · exact absurd hw (by simp)
    · rw [Except.ok.injEq] at hw
      subst hw
      simp [hfix]

theorem configure_ok_gearbox_has_override {c : ConfigureCfg} {w : Wiring}
    (hw : configure c = Except.ok w) (hg : c.hasGearbox = true) :
    ∃ R, c.fixedRPM = some R := by
  cases hfix : c.fixedRPM with
  | some R => exact ⟨R, rfl⟩
  | none =>
    simp [configure, hfix, hg] at hw

/-- Sample configuration: gearbox present, no fixed-RPM override, the
power source producing an RPM output. -/
def cfgGearboxNoOverride : ConfigureCfg :=
  { hasGearbox := true
    shpOutputSet := [RPM, SHAFT_POWER]
    gearboxInputSet := [RPM ++ "_in", SHAFT_POWER ++ "_in"]
    gearboxOutputSet := [RPM ++ "_out", SHAFT_POWER ++ "_out"]
    propellerInputSet := [SHAFT_POWER, RPM]
    fixedRPM := none
    verbosity := 1
    numNodes := 3 }

/-- Sample configuration: gearbox present, no override, and the
power-source manifest lacks an RPM output. -/
def cfgGearboxNoRPM : ConfigureCfg :=
  { hasGearbox := true
    shpOutputSet := [THRUST, SHAFT_POWER]
    gearboxInputSet := [RPM ++ "_in", SHAFT_POWER ++ "_in"]
    gearboxOutputSet := [RPM ++ "_out", SHAFT_POWER ++ "_out"]
    propellerInputSet := [SHAFT_POWER, RPM]
    fixedRPM := none
    verbosity := 1
    numNodes := 3 }

/-- Sample configuration: gearbox present, fixed-RPM override of 1700 rpm,
three nodes, BRIEF verbosity. -/
def cfgOverride : ConfigureCfg :=
  { hasGearbox := true
    shpOutputSet := [RPM, SHAFT_POWER, THRUST]
    gearboxInputSet := [RPM ++ "_in", SHAFT_POWER ++ "_in"]
    gearboxOutputSet := [RPM ++ "_out", SHAFT_POWER ++ "_out"]
    propellerInputSet := [SHAFT_POWER, RPM]
    fixedRPM := some 1700
    verbosity := 1
    numNodes := 3 }

/-- C1: the claim says that with a gearbox present and no fixed-RPM
override, wiring connects the power-source RPM output to the gearbox RPM
input through the shared synthetic alias `rpm + "_gearbox"`.  The source
instead executes `shp_outputs((rpm, rpm + '_gearbox'))` and
`gearbox_inputs((rpm + '_in', rpm + '_gearbox'))` — calling the list
objects rather than appending to them — so every such configuration
aborts with a `TypeError` and no alias is ever registered. -/
theorem configure_gearbox_noOverride_raises (c : ConfigureCfg)
    (hg : c.hasGearbox = true) (hn : c.fixedRPM = none) :
    configure c = Except.error ConfigureError.listNotCallable := by
  simp [configure, hn, hg]

/-- Witness for C1 at a concrete configuration. -/
theorem configure_gearbox_noOverride_raises_witness :
    cfgGearboxNoOverride.hasGearbox = true ∧
    cfgGearboxNoOverride.fixedRPM = none ∧
    configure cfgGearboxNoOverride = Except.error ConfigureError.listNotCallable :=
  ⟨rfl, rfl, configure_gearbox_noOverride_raises cfgGearboxNoOverride rfl rfl⟩

/-- C6: the claim says a fatal `ConfigurationError` naming the offending
stage and port is raised when a gearbox is present, no override is set and
the power-source manifest lacks an RPM-convention output.  The code does
abort wiring fatally and returns no partial pipeline, but the raised error
is the `TypeError` from calling the promotion-list objects — it carries no
stage or port information, and is raised regardless of whether the RPM
output is actually missing. -/
theorem configure_missing_rpm_fatal (c : ConfigureCfg)
    (hg : c.hasGearbox = true) (hn : c.fixedRPM = none)
    (_hr : RPM ∉ c.shpOutputSet) :
    configure c = Except.error ConfigureError.listNotCallable ∧
    ∀ w : Wiring, configure c ≠ Except.ok w := by
  constructor
  · simp [configure, hn, hg]
  · intro w h
    simp [configure, hn, hg] at h

/-- Witness for C6 at a concrete configuration lacking an RPM output. -/
theorem configure_missing_rpm_fatal_witness :
    cfgGearboxNoRPM.hasGearbox = true ∧
    cfgGearboxNoRPM.fixedRPM = none ∧
    RPM ∉ cfgGearboxNoRPM.shpOutputSet ∧
    (configure cfgGearboxNoRPM = Except.error ConfigureError.listNotCallable ∧
      ∀ w : Wiring, configure cfgGearboxNoRPM ≠ Except.ok w) :=
  ⟨rfl, rfl, by decide,
   configure_missing_rpm_fatal cfgGearboxNoRPM rfl rfl (by decide)⟩

/-- C2: with a fixed-RPM override of value R (already unit-converted to
rpm) and node count N, `configure` materializes the constant array
`np.ones(N) * R` (length N, every element R); when the power source also
produces an RPM output that output is aliased to the synthesis name
`AUTO_OVERRIDE:rpm` — distinct from every name under which the pipeline
RPM is exposed — and the warning fires exactly when verbosity is at least
BRIEF; with a gearbox the constant (exposed as `fixed_rpm`) is bound to
the gearbox input `rpm + "_in"`, otherwise it is promoted directly as the
pipeline RPM output. -/
theorem fixedRPM_override_wiring (c : ConfigureCfg) (R : Rat)
    (hc : c.fixedRPM = some R) :
    ∃ w : Wiring, configure c = Except.ok w ∧
      w.fixedRPMArray = some (List.replicate c.numNodes R) ∧
      (List.replicate c.numNodes R).length = c.numNodes ∧
      (∀ x ∈ List.replicate c.numNodes R, x = R) ∧
      (RPM ∈ c.shpOutputSet →
        promoteName w.shpOutputs RPM = some ("AUTO_OVERRIDE:" ++ RPM) ∧
        ("AUTO_OVERRIDE:" ++ RPM) ≠ RPM ∧
        ("AUTO_OVERRIDE:" ++ RPM) ≠ "fixed_rpm") ∧
      (RPM ∈ c.shpOutputSet → (w.warned = true ↔ BRIEF ≤ c.verbosity)) ∧
      (c.hasGearbox = true →
        w.fixedRPMPromos = [Promo.ali RPM "fixed_rpm"] ∧
        promoteName w.fixedRPMPromos RPM = some "fixed_rpm" ∧
        promoteName w.gearboxInputs (RPM ++ "_in") = some "fixed_rpm") ∧
      (c.hasGearbox = false →
        w.fixedRPMPromos = [Promo.glob] ∧
        promoteName w.fixedRPMPromos RPM = some RPM) := by
  refine ⟨{ shpOutputs :=
              if RPM ∈ c.shpOutputSet then
                shpOutputsBase c ++ [Promo.ali RPM ("AUTO_OVERRIDE:" ++ RPM)]
              else shpOutputsBase c
            gearboxInputs :=
              if c.hasGearbox then
                gearboxInputsBase c ++ [Promo.ali (RPM ++ "_in") "fixed_rpm"]
              else gearboxInputsBase c
            gearboxOutputs := gearboxOutputsFull c
            propellerInputs := [Promo.glob]
            propellerOutputs := propellerOutputsDef
            fixedRPMArray := some (List.replicate c.numNodes R)
            fixedRPMPromos :=
              if c.hasGearbox then [Promo.ali RPM "fixed_rpm"] else [Promo.glob]
            warned := decide (RPM ∈ c.shpOutputSet) && decide (BRIEF ≤ c.verbosity) },
          ?_, rfl, by simp, ?_, ?_, ?_, ?_, ?_⟩
  · simp [configure, hc]
  · intro x hx
    exact List.eq_of_mem_replicate hx
  · intro h
    refine ⟨?_, by decide, by decide⟩
    simp only [if_pos h]
    exact promoteName_concat _ _ _
  · intro h
    simp [h]
  · intro hg
    refine ⟨by simp [hg], by simp [hg]; decide, ?_⟩
    simp only [hg, if_true]
    exact promoteName_concat _ _ _
  · intro hg
    refine ⟨by simp [hg], ?_⟩
    simp only [hg, Bool.false_eq_true, if_false]
    exact promoteName_glob_only RPM

/-- Witness for C2 at a concrete override configuration (R = 1700, N = 3). -/
theorem fixedRPM_override_wiring_witness :
    cfgOverride.fixedRPM = some 1700 ∧
    (∃ w : Wiring, configure cfgOverride = Except.ok w ∧
      w.fixedRPMArray = some (List.replicate cfgOverride.numNodes 1700) ∧
      (List.replicate cfgOverride.numNodes (1700 : Rat)).length = cfgOverride.numNodes ∧
      (∀ x ∈ List.replicate cfgOverride.numNodes (1700 : Rat), x = 1700) ∧
      (RPM ∈ cfgOverride.shpOutputSet →
        promoteName w.shpOutputs RPM = some ("AUTO_OVERRIDE:" ++ RPM) ∧
        ("AUTO_OVERRIDE:" ++ RPM) ≠ RPM ∧
        ("AUTO_OVERRIDE:" ++ RPM) ≠ "fixed_rpm") ∧
      (RPM ∈ cfgOverride.shpOutputSet → (w.warned = true ↔ BRIEF ≤ cfgOverride.verbosity)) ∧
      (cfgOverride.hasGearbox = true →
        w.fixedRPMPromos = [Promo.ali RPM "fixed_rpm"] ∧
        promoteName w.fixedRPMPromos RPM = some "fixed_rpm" ∧
        promoteName w.gearboxInputs (RPM ++ "_in") = some "fixed_rpm") ∧
      (cfgOverride.hasGearbox = false →
        w.fixedRPMPromos = [Promo.glob] ∧
        promoteName w.fixedRPMPromos RPM = some RPM)) :=
  ⟨rfl, fixedRPM_override_wiring cfgOverride 1700 rfl⟩

/-- C3: the thrust combination is the pure element-wise summation
`turboprop_thrust = turboshaft_thrust + propeller_thrust` and
`turboprop_thrust_max = turboshaft_thrust_max + propeller_thrust_max`
over the node batch, and an operand left unconnected by wiring defaults to
the declared zero array of the batch length (so the sum degenerates to the
other operand, or to the zero array when both are unconnected). -/
theorem thrust_adders_sum (n : Nat) (ts pr tsm prm : List Rat)
    (h1 : ts.length = n) (h2 : pr.length = n)
    (h3 : tsm.length = n) (h4 : prm.length = n) :
    (thrust_adder n (some ts) (some pr)).length = n ∧
    (∀ i, i < n →
      (thrust_adder n (some ts) (some pr)).getD i 0 = ts.getD i 0 + pr.getD i 0) ∧
    resolveInput n none = List.replicate n 0 ∧
    thrust_adder n none (some pr) = pr ∧
    thrust_adder n (some ts) none = ts ∧
    thrust_adder n none none = List.replicate n 0 ∧
    (max_thrust_adder n (some tsm) (some prm)).length = n ∧
    (∀ i, i < n →
      (max_thrust_adder n (some tsm) (some prm)).getD i 0 =
        tsm.getD i 0 + prm.getD i 0) ∧
    max_thrust_adder n none (some prm) = prm ∧
    max_thrust_adder n (some tsm) none = tsm ∧
    max_thrust_adder n none none = List.replicate n 0 := by
  refine ⟨?_, ?_, rfl, ?_, ?_, ?_, ?_, ?_, ?_, ?_, ?_⟩
  · simp [thrust_adder, resolveInput, h1, h2]
  · intro i hi
    exact zipWith_add_getD ts pr i (h1 ▸ hi) (h2 ▸ hi)
  · show List.zipWith _ (List.replicate n 0) pr = pr
    rw [← h2]
    exact zipWith_add_replicate_left pr
  · show List.zipWith _ ts (List.replicate n 0) = ts
    rw [← h1]
    exact zipWith_add_replicate_right ts
  · show List.zipWith _ (List.replicate n 0) (List.replicate n 0) = List.replicate n 0
    have h := zipWith_add_replicate_left (List.replicate n (0 : Rat))
    rw [List.length_replicate] at h
    exact h
  · simp [max_thrust_adder, resolveInput, h3, h4]
  · intro i hi
    exact zipWith_add_getD tsm prm i (h3 ▸ hi) (h4 ▸ hi)
  · show List.zipWith _ (List.replicate n 0) prm = prm
    rw [← h4]
    exact zipWith_add_replicate_left prm
  · show List.zipWith _ tsm (List.replicate n 0) = tsm
    rw [← h3]
    exact zipWith_add_replicate_right tsm
  · show List.zipWith _ (List.replicate n 0) (List.replicate n 0) = List.replicate n 0
    have h := zipWith_add_replicate_left (List.replicate n (0 : Rat))
    rw [List.length_replicate] at h
    exact h

/-- Witness for C3 on a concrete two-node batch. -/
theorem thrust_adders_sum_witness :
    ([(1 : Rat), 2].length = 2 ∧ [(3 : Rat), 4].length = 2 ∧
     [(5 : Rat), 6].length = 2 ∧ [(7 : Rat), 8].length = 2) ∧
    ((thrust_adder 2 (some [1, 2]) (some [3, 4])).length = 2 ∧
    (∀ i, i < 2 →
      (thrust_adder 2 (some [1, 2]) (some [3, 4])).getD i 0 =
        [(1 : Rat), 2].getD i 0 + [(3 : Rat), 4].getD i 0) ∧
    resolveInput 2 none = List.replicate 2 0 ∧
    thrust_adder 2 none (some [3, 4]) = [3, 4] ∧
    thrust_adder 2 (some [1, 2]) none = [1, 2] ∧
    thrust_adder 2 none none = List.replicate 2 0 ∧
    (max_thrust_adder 2 (some [5, 6]) (some [7, 8])).length = 2 ∧
    (∀ i, i < 2 →
      (max_thrust_adder 2 (some [5, 6]) (some [7, 8])).getD i 0 =
        [(5 : Rat), 6].getD i 0 + [(7 : Rat), 8].getD i 0) ∧
    max_thrust_adder 2 none (some [7, 8]) = [7, 8] ∧
    max_thrust_adder 2 (some [5, 6]) none = [5, 6] ∧
    max_thrust_adder 2 none none = List.replicate 2 0) :=
  ⟨⟨rfl, rfl, rfl, rfl⟩, thrust_adders_sum 2 [1, 2] [3, 4] [5, 6] [7, 8] rfl rfl rfl rfl⟩

theorem mem_gbOuts_tgt {shpSet gbSet : List String} {s t : String}
    (h : Promo.ali s t ∈ shpGearboxOuts shpSet gbSet) : t = s ++ "_gearbox" := by
  rcases mem_shpGearboxOuts.mp h with ⟨u, _, hp⟩
  have hshape := gbOutStep_shape hp
  rw [Promo.ali.injEq] at hshape
  rcases hshape with ⟨h1, h2⟩
  subst h1
  exact h2

theorem mem_shpOutputs_ali {c : ConfigureCfg} {w : Wiring}
    (hw : configure c = Except.ok w) {p : Promo}
    (hne : p ≠ Promo.ali RPM ("AUTO_OVERRIDE:" ++ RPM)) :
    p ∈ w.shpOutputs ↔ p ∈ shpOutputsBase c := by
  obtain ⟨hso, -⟩ := configure_ok_shape hw
  cases hfix : c.fixedRPM with
  | none =>
    simp only [hfix] at hso
    rw [hso]
  | some R =>
    simp only [hfix] at hso
    rw [hso]
    split
    · rw [List.mem_append]
      constructor
      · rintro (h | h)
        · exact h
        · exact absurd (List.mem_singleton.mp h) hne
      · exact Or.inl
    · exact Iff.rfl

theorem mem_shpOutputsBase_thrust (c : ConfigureCfg) :
    Promo.ali THRUST "turboshaft_thrust" ∈ shpOutputsBase c ↔
      THRUST ∈ c.shpOutputSet := by
  unfold shpOutputsBase
  constructor
  · intro h
    simp only [List.mem_append] at h
    rcases h with ((h | h) | h) | h
    · exact absurd h (by decide)
    · split at h
      · next hc => exact hc
      · exact absurd h (by simp)
    · split at h
      · exact absurd h (by decide)
      · exact absurd h (by simp)
    · split at h
      · exact absurd (mem_gbOuts_tgt h) (by decide)
      · exact absurd h (by simp)
  · intro hc
    simp only [List.mem_append]
    exact Or.inl (Or.inl (Or.inr (by rw [if_pos hc]; exact List.mem_singleton.mpr rfl)))

theorem mem_shpOutputsBase_thrust_max (c : ConfigureCfg) :
    Promo.ali THRUST_MAX "turboshaft_thrust_max" ∈ shpOutputsBase c ↔
      THRUST_MAX ∈ c.shpOutputSet := by
  unfold shpOutputsBase
  constructor
  · intro h
    simp only [List.mem_append] at h
    rcases h with ((h | h) | h) | h
    · exact absurd h (by decide)
    · split at h
      · exact absurd h (by decide)
      · exact absurd h (by simp)
    · split at h
      · next hc => exact hc
      · exact absurd h (by simp)
    · split at h
      · exact absurd (mem_gbOuts_tgt h) (by decide)
      · exact absurd h (by simp)
  · intro hc
    simp only [List.mem_append]
    exact Or.inl (Or.inr (by rw [if_pos hc]; exact List.mem_singleton.mpr rfl))

theorem hasGlob_shpOutputs {c : ConfigureCfg} {w : Wiring}
    (hw : configure c = Except.ok w) : hasGlob w.shpOutputs = true := by
  obtain ⟨hso, -⟩ := configure_ok_shape hw
  cases hfix : c.fixedRPM with
  | none =>
    simp only [hfix] at hso
    rw [hso]
    rfl
  | some R =>
    simp only [hfix] at hso
    rw [hso]
    split
    · have hb := hasGlob_shpOutputsBase c
      unfold hasGlob at hb ⊢
      rw [List.any_append, hb]
      rfl
    · rfl

/-- C7: for every power-source output `v` other than RPM, with a gearbox
present: if `v` is a gearbox input, both the producer and the gearbox
consumer are aliased to `v + "_gearbox"`; otherwise if `v + "_in"` is a
gearbox input, the producer is aliased to `v + "_gearbox"` and the gearbox
input `v + "_in"` to the same name; a port satisfying neither condition
gets no gearbox alias at all and resolves through the glob under its own
name. -/
theorem shp_gearbox_alias_rules (shpSet gbSet : List String) (v : String)
    (hv : v ∈ shpSet) (hr : v ≠ RPM) :
    (v ∈ gbSet →
      Promo.ali v (v ++ "_gearbox") ∈ shpGearboxOuts shpSet gbSet ∧
      Promo.ali v (v ++ "_gearbox") ∈ shpGearboxIns shpSet gbSet) ∧
    (v ∉ gbSet → (v ++ "_in") ∈ gbSet →
      Promo.ali v (v ++ "_gearbox") ∈ shpGearboxOuts shpSet gbSet ∧
      Promo.ali (v ++ "_in") (v ++ "_gearbox") ∈ shpGearboxIns shpSet gbSet) ∧
    (v ∉ gbSet → (v ++ "_in") ∉ gbSet →
      (∀ t, Promo.ali v t ∉ shpGearboxOuts shpSet gbSet) ∧
      promoteName (Promo.glob :: shpGearboxOuts shpSet gbSet) v = some v) := by
  refine ⟨?_, ?_, ?_⟩
  · intro hgb
    constructor
    · exact mem_shpGearboxOuts.mpr ⟨v, hv, by simp [gbOutStep, hv, hgb, hr]⟩
    · exact mem_shpGearboxIns.mpr ⟨v, hv, by simp [gbInStep, hv, hgb, hr]⟩
  · intro hn hin
    constructor
    · exact mem_shpGearboxOuts.mpr ⟨v, hv, by simp [gbOutStep, hv, hn, hin, hr]⟩
    · exact mem_shpGearboxIns.mpr ⟨v, hv, by simp [gbInStep, hv, hn, hin, hr]⟩
  · intro hn hin
    have hno : ∀ t, Promo.ali v t ∉ shpGearboxOuts shpSet gbSet := by
      intro t ht
      rcases mem_shpGearboxOuts.mp ht with ⟨u, _, hp⟩
      have hcond := gbOutStep_cond hp
      have hshape := gbOutStep_shape hp
      rw [Promo.ali.injEq] at hshape
      rcases hshape with ⟨h1, -⟩
      subst h1
      rcases hcond with h | h
      · exact hn h
      · exact hin h
    refine ⟨hno, ?_⟩
    apply promoteName_of_none
    · apply findAlias_eq_none
      intro p hp
      rcases List.mem_cons.mp hp with rfl | hp'
      · rfl
      · rcases mem_shpGearboxOuts.mp hp' with ⟨u, _, hpu⟩
        have hshape := gbOutStep_shape hpu
        subst hshape
        by_cases huv : u = v
        · subst huv
          rcases gbOutStep_cond hpu with h | h
          · exact absurd h hn
          · exact absurd h hin
        · simp [promoSrcTgt, huv]
    · rfl

/-- Witness for C7: `shaft_power` matched through the `_in` suffix
convention, `torque` through the direct name, `voltage` through neither. -/
theorem shp_gearbox_alias_rules_witness :
    (SHAFT_POWER ∈ [SHAFT_POWER, "torque", "voltage"] ∧ SHAFT_POWER ≠ RPM) ∧
    (SHAFT_POWER ∉ ["torque", SHAFT_POWER ++ "_in"] →
      (SHAFT_POWER ++ "_in") ∈ ["torque", SHAFT_POWER ++ "_in"] →
      Promo.ali SHAFT_POWER (SHAFT_POWER ++ "_gearbox") ∈
        shpGearboxOuts [SHAFT_POWER, "torque", "voltage"] ["torque", SHAFT_POWER ++ "_in"] ∧
      Promo.ali (SHAFT_POWER ++ "_in") (SHAFT_POWER ++ "_gearbox") ∈
        shpGearboxIns [SHAFT_POWER, "torque", "voltage"] ["torque", SHAFT_POWER ++ "_in"]) :=
  ⟨⟨by decide, by decide⟩,
   (shp_gearbox_alias_rules [SHAFT_POWER, "torque", "voltage"]
      ["torque", SHAFT_POWER ++ "_in"] SHAFT_POWER (by decide) (by decide)).2.1⟩

/-- C8: with a gearbox present, every propeller input `v` for which the
gearbox output manifest has `v + "_out"` gets the gearbox output aliased
to the exact name `v`, and the propeller inputs are promoted by the glob
alone — never renamed. -/
theorem gearbox_propeller_passthrough (c : ConfigureCfg) (w : Wiring)
    (hw : configure c = Except.ok w) (hg : c.hasGearbox = true)
    (v : String) (hv : v ∈ c.propellerInputSet)
    (ho : (v ++ "_out") ∈ c.gearboxOutputSet) :
    Promo.ali (v ++ "_out") v ∈ w.gearboxOutputs ∧
    w.propellerInputs = [Promo.glob] ∧
    (∀ u, promoteName w.propellerInputs u = some u) := by
  obtain ⟨-, -, hgo, hpi, -⟩ := configure_ok_shape hw
  refine ⟨?_, hpi, ?_⟩
  · rw [hgo]
    unfold gearboxOutputsFull
    rw [List.mem_append]
    refine Or.inr ?_
    rw [if_pos hg]
    exact mem_gearboxPropOuts.mpr ⟨v, hv, by simp [gbPropStep, ho, hv]⟩
  · intro u
    rw [hpi]
    exact promoteName_glob_only u

/-- Witness for C8 on the concrete override configuration. -/
theorem gearbox_propeller_passthrough_witness :
    ∃ w : Wiring, configure cfgOverride = Except.ok w ∧
      (Promo.ali (SHAFT_POWER ++ "_out") SHAFT_POWER ∈ w.gearboxOutputs ∧
       w.propellerInputs = [Promo.glob] ∧
       (∀ u, promoteName w.propellerInputs u = some u)) :=
  ⟨_, rfl, gearbox_propeller_passthrough cfgOverride _ rfl rfl
      SHAFT_POWER (by decide) (by decide)⟩

/-- C9: in per-node wiring, a power-source output literally named
`thrust` (resp. `thrust_max`) is aliased to `turboshaft_thrust`
(resp. `turboshaft_thrust_max`) exactly when it is present in the
power-source output manifest; the propeller outputs are promoted by
`['*', (thrust, propeller_thrust), (thrust_max, propeller_thrust_max)]`,
so `thrust` and `thrust_max` are aliased and every other propeller output
passes through unaliased; and (gearbox absent) every power-source output
other than `thrust`, `thrust_max` and `rpm` passes through unaliased. -/
theorem thrust_alias_and_passthrough (c : ConfigureCfg) (w : Wiring)
    (hw : configure c = Except.ok w) :
    (Promo.ali THRUST "turboshaft_thrust" ∈ w.shpOutputs ↔
      THRUST ∈ c.shpOutputSet) ∧
    (Promo.ali THRUST_MAX "turboshaft_thrust_max" ∈ w.shpOutputs ↔
      THRUST_MAX ∈ c.shpOutputSet) ∧
    w.propellerOutputs = propellerOutputsDef ∧
    promoteName w.propellerOutputs THRUST = some "propeller_thrust" ∧
    promoteName w.propellerOutputs THRUST_MAX = some "propeller_thrust_max" ∧
    (∀ v, v ≠ THRUST → v ≠ THRUST_MAX →
      promoteName w.propellerOutputs v = some v) ∧
    (c.hasGearbox = false → ∀ v, v ≠ THRUST → v ≠ THRUST_MAX → v ≠ RPM →
      promoteName w.shpOutputs v = some v) := by
  obtain ⟨hso, -, -, -, hpo, -⟩ := configure_ok_shape hw
  refine ⟨?_, ?_, hpo, ?_, ?_, ?_, ?_⟩
  · rw [mem_shpOutputs_ali hw (by decide)]
    exact mem_shpOutputsBase_thrust c
  · rw [mem_shpOutputs_ali hw (by decide)]
    exact mem_shpOutputsBase_thrust_max c
  · rw [hpo]
    decide
  · rw [hpo]
    decide
  · intro v h1 h2
    rw [hpo]
    apply promoteName_of_none
    · apply findAlias_eq_none
      intro p hp
      rcases List.mem_cons.mp hp with rfl | hp'
      · rfl
      · rcases List.mem_cons.mp hp' with rfl | hp''
        · have h1' : ¬ (THRUST = v) := fun e => h1 e.symm
          simp [promoSrcTgt, h1']
        · rcases List.mem_cons.mp hp'' with rfl | hp'''
          · have h2' : ¬ (THRUST_MAX = v) := fun e => h2 e.symm
            simp [promoSrcTgt, h2']
          · exact absurd hp''' (by simp)
    · rfl
  · intro hg v h1 h2 h3
    apply promoteName_of_none
    · apply findAlias_eq_none
      intro p hp
      have hbase : ∀ q ∈ shpOutputsBase c, promoSrcTgt v q = none := by
        intro q hq
        unfold shpOutputsBase at hq
        simp only [List.mem_append] at hq
        rcases hq with ((hq | hq) | hq) | hq
        · rcases List.mem_singleton.mp hq with rfl
          rfl
        · split at hq
          · rcases List.mem_singleton.mp hq with rfl
            have h1' : ¬ (THRUST = v) := fun e => h1 e.symm
            simp [promoSrcTgt, h1']
          · exact absurd hq (by simp)
        · split at hq
          · rcases List.mem_singleton.mp hq with rfl
            have h2' : ¬ (THRUST_MAX = v) := fun e => h2 e.symm
            simp [promoSrcTgt, h2']
          · exact absurd hq (by simp)
        · rw [hg] at hq
          exact absurd hq (by simp)
      cases hfix : c.fixedRPM with
      | none =>
        simp only [hfix] at hso
        rw [hso] at hp
        exact hbase p hp
      | some R =>
        simp only [hfix] at hso
        rw [hso] at hp
        split at hp
        · rcases List.mem_append.mp hp with h | h
          · exact hbase p h
          · rcases List.mem_singleton.mp h with rfl
            have h3' : ¬ (RPM = v) := fun e => h3 e.symm
            simp [promoSrcTgt, h3']
        · exact hbase p hp
    · exact hasGlob_shpOutputs hw

/-- Sample configuration: gearbox absent, no override (the spec §8
scenario: power source produces thrust, thrust_max and rpm). -/
def cfgNoGearbox : ConfigureCfg :=
  { hasGearbox := false
    shpOutputSet := [THRUST, THRUST_MAX, RPM]
    gearboxInputSet := []
    gearboxOutputSet := []
    propellerInputSet := [SHAFT_POWER]
    fixedRPM := none
    verbosity := 1
    numNodes := 1 }

/-- Witness for C9 on a concrete gearbox-free configuration. -/
theorem thrust_alias_and_passthrough_witness :
    ∃ w : Wiring, configure cfgNoGearbox = Except.ok w ∧
      ((Promo.ali THRUST "turboshaft_thrust" ∈ w.shpOutputs ↔
         THRUST ∈ cfgNoGearbox.shpOutputSet) ∧
       (Promo.ali THRUST_MAX "turboshaft_thrust_max" ∈ w.shpOutputs ↔
         THRUST_MAX ∈ cfgNoGearbox.shpOutputSet) ∧
       w.propellerOutputs = propellerOutputsDef ∧
       promoteName w.propellerOutputs THRUST = some "propeller_thrust" ∧
       promoteName w.propellerOutputs THRUST_MAX = some "propeller_thrust_max" ∧
       (∀ v, v ≠ THRUST → v ≠ THRUST_MAX →
         promoteName w.propellerOutputs v = some v) ∧
       (cfgNoGearbox.hasGearbox = false →
         ∀ v, v ≠ THRUST → v ≠ THRUST_MAX → v ≠ RPM →
           promoteName w.shpOutputs v = some v)) :=
  ⟨_, rfl, thrust_alias_and_passthrough cfgNoGearbox _ rfl⟩

theorem promoteName_var_thrust (v : String) :
    promoteName [Promo.var THRUST] v ≠ some THRUST_MAX := by
  by_cases hv : v = THRUST
  · subst hv
    decide
  · have hv' : ¬ (THRUST = v) := fun e => hv e.symm
    have hfa : findAlias [Promo.var THRUST] v = none := by
      apply findAlias_eq_none
      intro p hp
      rcases List.mem_singleton.mp hp with rfl
      simp [promoSrcTgt, hv']
    simp [promoteName, hfa, hasGlob]

/-- C4: the per-node build instantiates the propeller stage exactly twice,
a nominal and a max instance; in both the user-supplied and the built-in
(Hamilton Standard) case the max instance's shaft-power input is promoted
as `shaft_power_max` and its thrust output as `thrust_max`, while the
nominal instance keeps `shaft_power` and `thrust` unrenamed; every other
input of the max instance is exposed under the same name as in the nominal
instance; and no output of the nominal instance can resolve to
`thrust_max`, so `thrust_max` comes only from the max-power evaluation. -/
theorem propeller_dual_instances (pname : String) :
    userPropellerGroup pname = [userPropBase pname, userPropMax pname] ∧
    (userPropellerGroup pname).length = 2 ∧
    defaultPropellerGroup = [defaultPropBase, defaultPropMax] ∧
    defaultPropellerGroup.length = 2 ∧
    promoteName (userPropMax pname).inPromos SHAFT_POWER = some SHAFT_POWER_MAX ∧
    promoteName (userPropMax pname).outPromos THRUST = some THRUST_MAX ∧
    promoteName (userPropBase pname).inPromos SHAFT_POWER = some SHAFT_POWER ∧
    promoteName (userPropBase pname).outPromos THRUST = some THRUST ∧
    (∀ v, v ≠ SHAFT_POWER →
      promoteName (userPropMax pname).inPromos v = some v ∧
      promoteName (userPropBase pname).inPromos v = some v) ∧
    (∀ v, promoteName (userPropBase pname).outPromos v ≠ some THRUST_MAX) ∧
    promoteName defaultPropMax.inPromos SHAFT_POWER = some SHAFT_POWER_MAX ∧
    promoteName defaultPropMax.outPromos THRUST = some THRUST_MAX ∧
    promoteName defaultPropBase.inPromos SHAFT_POWER = some SHAFT_POWER ∧
    promoteName defaultPropBase.outPromos THRUST = some THRUST ∧
    (∀ v ∈ propellerPerformanceInputs, v ≠ SHAFT_POWER →
      promoteName defaultPropMax.inPromos v = some v ∧
      promoteName defaultPropBase.inPromos v = some v) ∧
    (∀ v ∈ propellerPerformanceOutputs,
      promoteName defaultPropBase.outPromos v ≠ some THRUST_MAX) := by
  refine ⟨rfl, rfl, rfl, rfl, ?_, ?_, ?_, ?_,
          ?_, ?_, by decide, by decide, by decide, by decide, by decide, by decide⟩
  · show promoteName [Promo.glob, Promo.ali SHAFT_POWER SHAFT_POWER_MAX]
      SHAFT_POWER = some SHAFT_POWER_MAX
    decide
  · show promoteName [Promo.ali THRUST THRUST_MAX] THRUST = some THRUST_MAX
    decide
  · show promoteName [Promo.glob] SHAFT_POWER = some SHAFT_POWER
    decide
  · show promoteName [Promo.var THRUST] THRUST = some THRUST
    decide
  · intro v hv
    have hv' : ¬ (SHAFT_POWER = v) := fun e => hv e.symm
    constructor
    · apply promoteName_of_none
      · apply findAlias_eq_none
        intro p hp
        rcases List.mem_cons.mp hp with rfl | hp'
        · rfl
        · rcases List.mem_singleton.mp hp' with rfl
          simp [promoSrcTgt, hv']
      · rfl
    · exact promoteName_glob_only v
  · exact fun v => promoteName_var_thrust v

/-- Witness for C4 at a concrete stage name and input port. -/
theorem propeller_dual_instances_witness :
    promoteName (userPropMax "prop").inPromos SHAFT_POWER = some SHAFT_POWER_MAX ∧
    ("mach" ≠ SHAFT_POWER ∧
      promoteName (userPropMax "prop").inPromos "mach" = some "mach") ∧
    ("mach" ∈ propellerPerformanceInputs ∧
      promoteName defaultPropMax.inPromos "mach" = some "mach") := by
  obtain ⟨-, -, -, -, h5, -, -, -, h9, -, -, -, -, -, h15, -⟩ :=
    propeller_dual_instances "prop"
  exact ⟨h5, ⟨by decide, (h9 "mach" (by decide)).1⟩,
         ⟨by decide, (h15 "mach" (by decide) (by decide)).1⟩⟩

/-- C5 counterexample: in `build_post_mission` a stage whose build returns
a computation is attached with no promotion, so its ports are not passed
through to the composite under their own names — the shaft-power model's
`shaft_power` port is visible only as the namespaced `shp.shaft_power`. -/
theorem post_mission_ports_not_promoted :
    build_post_mission "shp" true "gb" false none false =
      [{ aname := "shp", promos := [] }] ∧
    exposedAs { aname := "shp", promos := [] } SHAFT_POWER = "shp.shaft_power" ∧
    "shp.shaft_power" ≠ SHAFT_POWER := by
  refine ⟨rfl, rfl, by decide⟩

/-- C5 amended: no promotion entry in either composite is an alias; every
stage attached by `build_pre_mission` is promoted with `['*']`, so each of
its ports passes through under its own unmodified name, while every stage
attached by `build_post_mission` carries no promotion at all, its ports
remaining visible only under the stage-namespaced path `name.port`. -/
theorem pre_post_no_aliasing (shpIsEngineDeck : Bool)
    (shpPre gearboxPre propellerModel propellerPre : Option String)
    (shpName gearboxName : String) (shpPost gearboxPost propellerPost : Bool) :
    (∀ a ∈ build_pre_mission shpIsEngineDeck shpPre gearboxPre
        propellerModel propellerPre,
      a.promos = [Promo.glob] ∧ (∀ p, exposedAs a p = p) ∧
      (∀ s t, Promo.ali s t ∉ a.promos)) ∧
    (∀ a ∈ build_post_mission shpName shpPost gearboxName gearboxPost
        propellerModel propellerPost,
      a.promos = [] ∧ (∀ p, exposedAs a p = a.aname ++ "." ++ p) ∧
      (∀ s t, Promo.ali s t ∉ a.promos)) := by
  constructor
  · intro a ha
    have hpr : a.promos = [Promo.glob] := by
      unfold build_pre_mission at ha
      rcases List.mem_append.mp ha with h | h
      · rcases List.mem_append.mp h with h | h
        · split at h
          · exact absurd h (by simp)
          · split at h
            · rcases List.mem_singleton.mp h with rfl
              rfl
            · exact absurd h (by simp)
        · split at h
          · rcases List.mem_singleton.mp h with rfl
            rfl
          · exact absurd h (by simp)
      · split at h
        · split at h
          · rcases List.mem_singleton.mp h with rfl
            rfl
          · exact absurd h (by simp)
        · exact absurd h (by simp)
    refine ⟨hpr, ?_, ?_⟩
    · intro p
      unfold exposedAs
      rw [hpr]
      rfl
    · intro s t hmem
      rw [hpr] at hmem
      simp at hmem
  · intro a ha
    have hpr : a.promos = [] := by
      unfold build_post_mission at ha
      rcases List.mem_append.mp ha with h | h
      · rcases List.mem_append.mp h with h | h
        · split at h
          · rcases List.mem_singleton.mp h with rfl
            rfl
          · exact absurd h (by simp)
        · split at h
          · rcases List.mem_singleton.mp h with rfl
            rfl
          · exact absurd h (by simp)
      · split at h
        · split at h
          · rcases List.mem_singleton.mp h with rfl
            rfl
          · exact absurd h (by simp)
        · exact absurd h (by simp)
    refine ⟨hpr, ?_, ?_⟩
    · intro p
      unfold exposedAs
      rw [hpr]
      rfl
    · intro s t hmem
      rw [hpr] at hmem
      simp at hmem

/-- Witness for C5 (amended) at concrete pre and post composites. -/
theorem pre_post_no_aliasing_witness :
    ((⟨"s", [Promo.glob]⟩ : AttachedSub).promos = [Promo.glob] ∧
      (∀ p, exposedAs ⟨"s", [Promo.glob]⟩ p = p) ∧
      (∀ s t, Promo.ali s t ∉ (⟨"s", [Promo.glob]⟩ : AttachedSub).promos)) ∧
    ((⟨"shp", []⟩ : AttachedSub).promos = [] ∧
      (∀ p, exposedAs ⟨"shp", []⟩ p =
        (⟨"shp", []⟩ : AttachedSub).aname ++ "." ++ p) ∧
      (∀ s t, Promo.ali s t ∉ (⟨"shp", []⟩ : AttachedSub).promos)) := by
  have h := pre_post_no_aliasing false (some "s") none none none
    "shp" "gb" true false false
  exact ⟨h.1 ⟨"s", [Promo.glob]⟩ (by decide), h.2 ⟨"shp", []⟩ (by decide)⟩

/-- C10: `TurbopropModel.__init__` never leaves the gearbox absent — when
`gearbox_model` is `None` it substitutes a default
`GearboxBuilder(name + '_gearbox', include_constraints=True)` — so every
mission group built through `TurbopropModel.build_mission` has
`has_gearbox = true`; the gearbox-absent topology corresponds only to a
directly constructed mission group with a `None` gearbox option. -/
theorem turboprop_model_always_has_gearbox (name : String)
    (shaft_power_model propeller_model : Option String)
    (gearbox_model : Option GearboxBuilderModel) :
    (TurbopropModel_init name shaft_power_model propeller_model
        gearbox_model).gearbox_model.isSome = true ∧
    hasGearboxOf (TurbopropModel_build_mission_gearbox
      (TurbopropModel_init name shaft_power_model propeller_model
        gearbox_model)) = true ∧
    (gearbox_model = none →
      (TurbopropModel_init name shaft_power_model propeller_model
          gearbox_model).gearbox_model =
        some { name := name ++ "_gearbox", include_constraints := true }) ∧
    hasGearboxOf none = false := by
  refine ⟨?_, ?_, ?_, rfl⟩
  · cases gearbox_model <;> rfl
  · cases gearbox_model <;> rfl
  · intro h
    subst h
    rfl

/-- Witness for C10 with the default constructor arguments. -/
theorem turboprop_model_always_has_gearbox_witness :
    (TurbopropModel_init "turboprop_model" none none none).gearbox_model.isSome
      = true ∧
    hasGearboxOf (TurbopropModel_build_mission_gearbox
      (TurbopropModel_init "turboprop_model" none none none)) = true ∧
    (TurbopropModel_init "turboprop_model" none none none).gearbox_model =
      some { name := "turboprop_model" ++ "_gearbox",
             include_constraints := true } ∧
    hasGearboxOf none = false := by
  obtain ⟨h1, h2, h3, h4⟩ :=
    turboprop_model_always_has_gearbox "turboprop_model" none none none
  exact ⟨h1, h2, h3 rfl, h4⟩

end Turboprop
